import Mathlib

/-!
Verification of the key-retrieval code-task generators: a shallow embedding
of the TaskBuilder classes of krc.py and krfix.py and of the job-argument
construction of generate_data.py, together with theorems settling the
frozen claims about them.

The Python randomness source (random.Random) is modelled as a deterministic
stream of natural numbers with a cursor: each primitive draw consumes one
stream element.  rng.choice over a sequence picks the element indexed by the
draw modulo the sequence length, and rng.randint (a, b) maps the draw into
the inclusive interval.  This keeps every operation a pure function of the
randomness state, which is exactly the determinism granted by a seeded
random.Random.  Unbounded retry loops (uniquify, the fixed-name suffix
search) take a fuel parameter and return none when the fuel runs out; the
Python originals simply keep looping, so every successful run of the model
corresponds to a run of the source.
-/

namespace KRCTasks

/-- Deterministic randomness source: a stream of naturals and a cursor. -/
structure Rng where
  stream : Nat → Nat
  idx : Nat

/-- Consume one draw from the randomness source. -/
def Rng.next (r : Rng) : Nat × Rng :=
  (r.stream r.idx, { r with idx := r.idx + 1 })

/-- rng.choice over a list of characters: one draw, reduced modulo the
list length (the default is only returned for an empty list). -/
def Rng.choice (r : Rng) (l : List Char) (d : Char) : Char × Rng :=
  let (n, r') := r.next
  (l.getD (n % l.length) d, r')

/-- rng.randint (a, b): one draw mapped into the inclusive interval. -/
def Rng.randint (r : Rng) (a b : Nat) : Nat × Rng :=
  let (n, r') := r.next
  (a + n % (b + 1 - a), r')

/-- The alphabet "abcdefghijklmnopqrstuvwxyz" of random_string. -/
def lowercaseChars : List Char := "abcdefghijklmnopqrstuvwxyz".data

/-- The alphabet "0123456789" used by random_integer after the first digit. -/
def digitChars : List Char := "0123456789".data

/-- The alphabet "123456789" used by random_integer for the first digit. -/
def nonzeroDigitChars : List Char := "123456789".data

/-- Letters and digits together: every string registered by the random
generators consists of these characters. -/
def alnumChars : List Char := lowercaseChars ++ digitChars

/-- The configuration record consumed by one TaskBuilder instance.  Enum-like
fields are kept as raw strings because the source dispatches on string
equality (and, for call_graph_comment_type, on substring containment). -/
structure Config where
  return_type : String
  return_length : Nat
  function_name : String
  function_name_min_parts : Nat
  function_name_max_parts : Nat
  function_name_part_length : Nat
  call_graph_comment_type : String
  call_graph_template_variant : String

/-- The mutable state of a TaskBuilder instance: the randomness source and
the used-value registry (self.used_values, a set modelled as the list of
its elements, most recent first). -/
structure State where
  rng : Rng
  used_values : List String

/-- Loop body of random_string: the while loop appends one character drawn
from the lowercase alphabet per iteration until the target length is
reached, i.e. it appends exactly length - len(r) characters. -/
def randomStringAux (rng : Rng) (r : List Char) : Nat → List Char × Rng
  | 0 => (r, rng)
  | n + 1 =>
    let (c, rng') := rng.choice lowercaseChars 'a'
    randomStringAux rng' (r ++ [c]) n

/-- random_string(length): a string of exactly length lowercase letters. -/
def random_string (length : Nat) (rng : Rng) : String × Rng :=
  let (cs, rng') := randomStringAux rng [] length
  (⟨cs⟩, rng')

/-- Loop body of random_integer: the first appended character is drawn from
"123456789" (the accumulator is still empty), later ones from "0123456789". -/
def randomIntegerAux (rng : Rng) (r : List Char) : Nat → List Char × Rng
  | 0 => (r, rng)
  | n + 1 =>
    let (c, rng') := rng.choice (if r ≠ [] then digitChars else nonzeroDigitChars) '0'
    randomIntegerAux rng' (r ++ [c]) n

/-- random_integer(length): a digit string of exactly length characters whose
first digit is never zero. -/
def random_integer (length : Nat) (rng : Rng) : String × Rng :=
  let (cs, rng') := randomIntegerAux rng [] length
  (⟨cs⟩, rng')

/-- uniquify(generator): rerun the generator until it yields a value not in
the used-value registry, then record and return it.  The Python loop is
unbounded; fuel-exhaustion is modelled as none. -/
def uniquify (fuel : Nat) (generator : Rng → String × Rng) (st : State) :
    Option (String × State) :=
  match fuel with
  | 0 => none
  | fuel + 1 =>
    let (v, rng') := generator st.rng
    if v ∈ st.used_values then uniquify fuel generator { rng := rng', used_values := st.used_values }
    else some (v, { rng := rng', used_values := v :: st.used_values })

/-- value(length?): a fresh double-quoted random string for return_type
"string", a fresh random integer string for "integer"; any other
return_type raises (modelled as none). -/
def value (fuel : Nat) (cfg : Config) (length? : Option Nat) (st : State) :
    Option (String × State) :=
  let length := length?.getD cfg.return_length
  if cfg.return_type = "string" then
    match uniquify fuel (random_string length) st with
    | none => none
    | some (s, st') => some ("\"" ++ s ++ "\"", st')
  else if cfg.return_type = "integer" then
    uniquify fuel (random_integer length) st
  else none

/-- str.flatten of the source, written as a direct recursion. -/
def joinSep (sep : String) : List String → String
  | [] => ""
  | [s] => s
  | s :: rest => s ++ sep ++ joinSep sep rest

/-- The for-loop of the "random" naming scheme: for each loop index, part 0
uses random_string, part 1 random_integer, later parts one extra draw to
choose between the two generators; every part is uniquified individually. -/
def functionNameLoop (fuel : Nat) (cfg : Config) :
    List Nat → List String → State → Option (List String × State)
  | [], parts, st => some (parts, st)
  | i :: rest, parts, st =>
    if i = 0 then
      match uniquify fuel (random_string cfg.function_name_part_length) st with
      | none => none
      | some (p, st') => functionNameLoop fuel cfg rest (parts ++ [p]) st'
    else if i = 1 then
      match uniquify fuel (random_integer cfg.function_name_part_length) st with
      | none => none
      | some (p, st') => functionNameLoop fuel cfg rest (parts ++ [p]) st'
    else
      let (n, rng') := st.rng.next
      let fn := if n % 2 = 0 then random_integer else random_string
      match uniquify fuel (fn cfg.function_name_part_length) { st with rng := rng' } with
      | none => none
      | some (p, st') => functionNameLoop fuel cfg rest (parts ++ [p]) st'

/-- The "fixed" naming scheme loop: the canonical name, then canonical_1,
canonical_2, ... until a candidate is absent from the registry. -/
def fixedNameLoop (fuel : Nat) (canonical : String) (index : Nat) (st : State) :
    Option (String × State) :=
  match fuel with
  | 0 => none
  | fuel + 1 =>
    let candidate := if index = 0 then canonical else canonical ++ "_" ++ toString index
    if candidate ∈ st.used_values then fixedNameLoop fuel canonical (index + 1) st
    else some (candidate, { st with used_values := candidate :: st.used_values })

/-- function_name(canonical): the "random" scheme joins individually
uniquified parts with underscores; the "fixed" scheme runs the suffix
search; any other scheme raises (modelled as none). -/
def function_name (fuel : Nat) (cfg : Config) (canonical : String) (st : State) :
    Option (String × State) :=
  if cfg.function_name = "random" then
    let (n_parts, rng1) := st.rng.randint cfg.function_name_min_parts cfg.function_name_max_parts
    match functionNameLoop fuel cfg (List.range n_parts) [] { st with rng := rng1 } with
    | none => none
    | some (parts, st') => some (joinSep "_" parts, st')
  else if cfg.function_name = "fixed" then
    fixedNameLoop fuel canonical 0 st
  else none

/-- Python s[1:-1]: strip the first and the last character. -/
def pyStrip1 (s : String) : String := ⟨(s.data.drop 1).dropLast⟩

/-- A task result: context segments, generation prompt, expected output. -/
abbrev TaskResult := List String × String × String

namespace KRC

/-- One-step retrieval (krc.py): a single key function returning the literal. -/
def one_step (fuel : Nat) (cfg : Config) (st : State) : Option (TaskResult × State) := do
  let (return_value, st) ← value fuel cfg none st
  let (func_key, st) ← function_name fuel cfg "key_function" st
  pure (([ "def " ++ func_key ++ "():\n    return " ++ return_value ],
         "assert " ++ func_key ++ "() ==",
         " " ++ return_value), st)

/-- Two-step retrieval (krc.py). -/
def two_step (fuel : Nat) (cfg : Config) (st : State) : Option (TaskResult × State) := do
  let (return_value, st) ← value fuel cfg none st
  let (func_key, st) ← function_name fuel cfg "key_function" st
  let (func_val, st) ← function_name fuel cfg "value_function" st
  pure (([ "def " ++ func_val ++ "():\n    return " ++ return_value,
           "def " ++ func_key ++ "():\n    return " ++ func_val ++ "()" ],
         "assert " ++ func_key ++ "() ==",
         " " ++ return_value), st)

/-- Three-step retrieval (krc.py). -/
def three_step (fuel : Nat) (cfg : Config) (st : State) : Option (TaskResult × State) := do
  let (return_value, st) ← value fuel cfg none st
  let (func_key, st) ← function_name fuel cfg "key_function" st
  let (func_val_1, st) ← function_name fuel cfg "value_function_1" st
  let (func_val_2, st) ← function_name fuel cfg "value_function_2" st
  pure (([ "def " ++ func_val_1 ++ "():\n    return " ++ return_value,
           "def " ++ func_val_2 ++ "():\n    return " ++ func_val_1 ++ "()",
           "def " ++ func_key ++ "():\n    return " ++ func_val_2 ++ "()" ],
         "assert " ++ func_key ++ "() ==",
         " " ++ return_value), st)

/-- Concatenation retrieval (krc.py): two half-length values; the expected
output re-quotes the two stripped halves as one string.  The assert on
return_type "string" is modelled as returning none otherwise. -/
def concatenation (fuel : Nat) (cfg : Config) (st : State) : Option (TaskResult × State) := do
  if cfg.return_type = "string" then
    let (return_value_1, st) ← value fuel cfg (some (cfg.return_length / 2)) st
    let (return_value_2, st) ← value fuel cfg (some (cfg.return_length / 2)) st
    let (func_key, st) ← function_name fuel cfg "key_function" st
    let (func_val_1, st) ← function_name fuel cfg "value_function_1" st
    let (func_val_2, st) ← function_name fuel cfg "value_function_2" st
    pure (([ "def " ++ func_val_1 ++ "():\n    return " ++ return_value_1,
             "def " ++ func_val_2 ++ "():\n    return " ++ return_value_2,
             "def " ++ func_key ++ "():\n    return " ++ func_val_1 ++ "() + " ++ func_val_2 ++ "()" ],
           "assert " ++ func_key ++ "() ==",
           " \"" ++ (pyStrip1 return_value_1 ++ pyStrip1 return_value_2) ++ "\""), st)
  else none

/-- build(variant) of krc.py. -/
def build (fuel : Nat) (cfg : Config) (variant : String) (st : State) :
    Option (TaskResult × State) :=
  if variant = "one-step" then one_step fuel cfg st
  else if variant = "two-step" then two_step fuel cfg st
  else if variant = "three-step" then three_step fuel cfg st
  else if variant = "concatenation" then concatenation fuel cfg st
  else none

/-- A sequence of build calls on one instance, threading the state. -/
def buildSeq (fuel : Nat) (cfg : Config) (variants : List String) (st : State) :
    Option (List TaskResult × State) :=
  match variants with
  | [] => some ([], st)
  | v :: rest => do
    let (r, st') ← build fuel cfg v st
    let (rs, st'') ← buildSeq fuel cfg rest st'
    pure (r :: rs, st'')

end KRC

namespace KRFix

/-- call_graph_comment of krfix.py: renders a calls / called_by comment in
the sentence style or the bare name-list style; unknown directions or
template variants raise (modelled as none). -/
def call_graph_comment (cfg : Config) (direction : String) (func_names : List String) :
    Option String :=
  let template_variant := cfg.call_graph_template_variant
  if template_variant = "calls_called_by" then
    if direction = "calls" then
      some ("# This function calls " ++ joinSep " and " func_names ++ "\n")
    else if direction = "called_by" then
      some ("# This function is called by " ++ joinSep " and " func_names ++ "\n")
    else none
  else if template_variant = "function_names_only" then
    some ("# " ++ joinSep ", " func_names ++ "\n")
  else none

/-- Contiguous-sublist test on character lists (an empty needle matches). -/
def containsAux (needle : List Char) : List Char → Bool
  | [] => needle.isEmpty
  | c :: rest => needle.isPrefixOf (c :: rest) || containsAux needle rest

/-- Substring containment, the semantics of the Python expression
"needle in haystack" on strings, used on call_graph_comment_type. -/
def strContains (haystack needle : String) : Bool :=
  containsAux needle.data haystack.data

/-- Three-step retrieval of krfix.py: like krc, but declarations are
prefixed with call-graph comments according to call_graph_comment_type
(tested by substring containment, as in the source). -/
def three_step (fuel : Nat) (cfg : Config) (st : State) : Option (TaskResult × State) := do
  let (return_value, st) ← value fuel cfg none st
  let (func_key, st) ← function_name fuel cfg "key_function" st
  let (func_val_1, st) ← function_name fuel cfg "value_function_1" st
  let (func_val_2, st) ← function_name fuel cfg "value_function_2" st
  let func_1_decl := "def " ++ func_val_1 ++ "():\n    return " ++ return_value
  let func_2_decl := "def " ++ func_val_2 ++ "():\n    return " ++ func_val_1 ++ "()"
  let func_key_decl := "def " ++ func_key ++ "():\n    return " ++ func_val_2 ++ "()"
  let (func_1_decl, func_2_decl) ←
    if strContains cfg.call_graph_comment_type "called_by" then do
      let c1 ← call_graph_comment cfg "called_by" [func_val_2, func_key]
      let c2 ← call_graph_comment cfg "called_by" [func_key]
      pure (c1 ++ func_1_decl, c2 ++ func_2_decl)
    else pure (func_1_decl, func_2_decl)
  let (func_key_decl, func_2_decl) ←
    if strContains cfg.call_graph_comment_type "calls" then do
      let c1 ← call_graph_comment cfg "calls" [func_val_2, func_val_1]
      let c2 ← call_graph_comment cfg "calls" [func_val_1]
      pure (c1 ++ func_key_decl, c2 ++ func_2_decl)
    else pure (func_key_decl, func_2_decl)
  pure (([ func_1_decl, func_2_decl, func_key_decl ],
         "assert " ++ func_key ++ "() ==",
         " " ++ return_value), st)

/-- Concatenation retrieval of krfix.py, with call-graph comments. -/
def concatenation (fuel : Nat) (cfg : Config) (st : State) : Option (TaskResult × State) := do
  if cfg.return_type = "string" then
    let (return_value_1, st) ← value fuel cfg (some (cfg.return_length / 2)) st
    let (return_value_2, st) ← value fuel cfg (some (cfg.return_length / 2)) st
    let (func_key, st) ← function_name fuel cfg "key_function" st
    let (func_val_1, st) ← function_name fuel cfg "value_function_1" st
    let (func_val_2, st) ← function_name fuel cfg "value_function_2" st
    let func_1_decl := "def " ++ func_val_1 ++ "():\n    return " ++ return_value_1
    let func_2_decl := "def " ++ func_val_2 ++ "():\n    return " ++ return_value_2
    let func_key_decl :=
      "def " ++ func_key ++ "():\n    return " ++ func_val_1 ++ "() + " ++ func_val_2 ++ "()"
    let (func_1_decl, func_2_decl) ←
      if strContains cfg.call_graph_comment_type "called_by" then do
        let c ← call_graph_comment cfg "called_by" [func_key]
        pure (c ++ func_1_decl, c ++ func_2_decl)
      else pure (func_1_decl, func_2_decl)
    let func_key_decl ←
      if strContains cfg.call_graph_comment_type "calls" then do
        let c ← call_graph_comment cfg "calls" [func_val_1, func_val_2]
        pure (c ++ func_key_decl)
      else pure func_key_decl
    pure (([ func_1_decl, func_2_decl, func_key_decl ],
           "assert " ++ func_key ++ "() ==",
           " \"" ++ (pyStrip1 return_value_1 ++ pyStrip1 return_value_2) ++ "\""), st)
  else none

/-- build(variant) of krfix.py: only three-step and concatenation exist. -/
def build (fuel : Nat) (cfg : Config) (variant : String) (st : State) :
    Option (TaskResult × State) :=
  if variant = "three-step" then three_step fuel cfg st
  else if variant = "concatenation" then concatenation fuel cfg st
  else none

/-- A sequence of build calls on one krfix instance, threading the state. -/
def buildSeq (fuel : Nat) (cfg : Config) (variants : List String) (st : State) :
    Option (List TaskResult × State) :=
  match variants with
  | [] => some ([], st)
  | v :: rest => do
    let (r, st') ← build fuel cfg v st
    let (rs, st'') ← buildSeq fuel cfg rest st'
    pure (r :: rs, st'')

end KRFix

/-!
Model of the job-argument construction of generate_data.py.  Configuration
values are Python scalars: strings, integers, or None.
-/

/-- A configuration value as it appears in the dictionaries of
generate_data.py: a string, a nonnegative integer, or None. -/
inductive PyVal
  | str (s : String)
  | int (n : Nat)
  | null
deriving DecidableEq

/-- Python str() on such a value (None is filtered before stringification). -/
def pyStr : PyVal → String
  | PyVal.str s => s
  | PyVal.int n => toString n
  | PyVal.null => "None"

/-- The inner loop of tasks() in generate_data.py: the experiment kind as the
positional argument, then a "--key value" pair per non-None field, in the
configuration's key order. -/
def taskArgs (experiment : String) (config : List (String × PyVal)) : List String :=
  config.foldl
    (fun args kv =>
      match kv.2 with
      | PyVal.null => args
      | v => args ++ ["--" ++ kv.1, pyStr v])
    [experiment]

/-- tasks() of generate_data.py (minus the directory creation side effect). -/
def tasks (configs : List (String × List (String × PyVal))) : List (List String) :=
  configs.map (fun ec => taskArgs ec.1 ec.2)

/-- The argument pair one configuration entry contributes: nothing for a
None value, otherwise the "--key" flag and the stringified value. -/
def pairArgs (kv : String × PyVal) : List String :=
  match kv.2 with
  | PyVal.null => []
  | v => ["--" ++ kv.1, pyStr v]

/-- The per-variant num_key_functions table of generate_krc. -/
def num_key_functions_dict (variant : String) : Nat :=
  if variant = "one-step" then 100
  else if variant = "two-step" then 20
  else if variant = "three-step" then 20
  else if variant = "concatenation" then 20
  else 0

/-- The per-variant max_position_combinations table of generate_krc;
one-step maps to None, and .get returns None for missing keys too. -/
def max_pos_combs_dict (variant : String) : PyVal :=
  if variant = "one-step" then PyVal.null
  else if variant = "two-step" then PyVal.int 150
  else if variant = "three-step" then PyVal.int 50
  else if variant = "concatenation" then PyVal.int 50
  else PyVal.null

/-- One configuration dictionary yielded by generate_krc, in the key order
of the source. -/
def krcConfig (max_prompt_tokens : Nat) (model variant : String)
    (distractors seed : Nat) : List (String × PyVal) :=
  let mname := (model.splitOn "/").getLastD ""
  [ ("model_name", PyVal.str model),
    ("variant", PyVal.str variant),
    ("return_type", PyVal.str "string"),
    ("return_length", PyVal.int 10),
    ("function_name", PyVal.str "random"),
    ("num_key_functions", PyVal.int (num_key_functions_dict variant)),
    ("max_position_combinations", max_pos_combs_dict variant),
    ("humaneval_max_length", PyVal.int (if 4000 ≤ max_prompt_tokens then 1000 else 500)),
    ("max_prompt_tokens", PyVal.int max_prompt_tokens),
    ("max_humaneval_snippets", PyVal.int 1000000),
    ("num_distractors", PyVal.int distractors),
    ("seed", PyVal.int seed),
    ("output", PyVal.str ("./data/krc/krc_" ++ toString max_prompt_tokens ++ "_" ++ variant
      ++ "_" ++ mname ++ "_" ++ toString distractors ++ "_distractors_seed"
      ++ toString seed ++ ".json.gz")) ]

/-!
An abstract call sequence against one TaskBuilder instance, for the
registry invariants: each call is a value(), function_name(), or direct
uniquify() invocation.
-/

/-- Which generator an external uniquify call passes. -/
inductive GenKind
  | gstring
  | ginteger

/-- The generator denoted by a GenKind at a given length. -/
def GenKind.gen : GenKind → Nat → Rng → String × Rng
  | GenKind.gstring => random_string
  | GenKind.ginteger => random_integer

/-- One public call on a TaskBuilder instance. -/
inductive Call
  | value (len : Option Nat)
  | function_name (canonical : String)
  | uniquify (g : GenKind) (len : Nat)

/-- Run one call against the instance state. -/
def runCall (fuel : Nat) (cfg : Config) (c : Call) (st : State) :
    Option (String × State) :=
  match c with
  | Call.value len => value fuel cfg len st
  | Call.function_name canonical => function_name fuel cfg canonical st
  | Call.uniquify g len => uniquify fuel (g.gen len) st

/-- Run a sequence of calls, collecting the returned strings. -/
def runCalls (fuel : Nat) (cfg : Config) (cs : List Call) (st : State) :
    Option (List String × State) :=
  match cs with
  | [] => some ([], st)
  | c :: rest => do
    let (v, st') ← runCall fuel cfg c st
    let (vs, st'') ← runCalls fuel cfg rest st'
    pure (v :: vs, st'')

/-- The used-value registry only grows: the old registry is a suffix of the
new one, and freshness of every insertion preserves pairwise distinctness
of the registry entries. -/
def RegGrow (u u' : List String) : Prop :=
  u <:+ u' ∧ (u.Pairwise (fun a b => a ≠ b) → u'.Pairwise (fun a b => a ≠ b))

/-- Every registered string consists of lowercase letters and digits. -/
def AllAlnum (u : List String) : Prop :=
  ∀ s ∈ u, ∀ c ∈ s.data, c ∈ alnumChars

/-!  Concrete inputs used to witness the theorems below. -/

/-- The identity stream: draw n at cursor position n. -/
def idStream : Rng := ⟨fun n => n, 0⟩

/-- The all-zeros stream. -/
def zeroStream : Rng := ⟨fun _ => 0, 0⟩

/-- A fresh instance state over the identity stream. -/
def stId : State := ⟨idStream, []⟩

/-- A fresh instance state over the all-zeros stream. -/
def stZero : State := ⟨zeroStream, []⟩

/-- A string-typed configuration with the fixed naming scheme. -/
def cfgStrFixed (len : Nat) : Config :=
  ⟨"string", len, "fixed", 1, 1, 2, "", ""⟩

/-- An integer-typed configuration with the fixed naming scheme. -/
def cfgIntFixed (len : Nat) : Config :=
  ⟨"integer", len, "fixed", 1, 1, 2, "", ""⟩

/-- A string-typed configuration with the random naming scheme. -/
def cfgStrRandom : Config :=
  ⟨"string", 2, "random", 1, 1, 2, "", ""⟩

/-- A krfix configuration: both comment directions, bare name-list style. -/
def cfgKrfixDemo : Config :=
  ⟨"string", 4, "fixed", 1, 1, 2, "calls,called_by", "function_names_only"⟩

/-!  Soundness lemmas for the synthesizer. -/

theorem choice_mem {l : List Char} (r : Rng) (d : Char) (hl : l ≠ []) :
    (r.choice l d).1 ∈ l := by
  have hlen : 0 < l.length := List.length_pos.mpr hl
  have hmod : r.stream r.idx % l.length < l.length := Nat.mod_lt _ hlen
  simp only [Rng.choice, Rng.next]
  rw [List.getD_eq_getElem l d hmod]
  exact List.getElem_mem hmod

theorem randomStringAux_spec (n : Nat) : ∀ (rng : Rng) (r : List Char),
    ∃ t, (randomStringAux rng r n).1 = r ++ t ∧ t.length = n ∧
      ∀ c ∈ t, c ∈ lowercaseChars := by
  induction n with
  | zero => intro rng r; exact ⟨[], by simp [randomStringAux]⟩
  | succ n ih =>
    intro rng r
    obtain ⟨c, rng', hc⟩ : ∃ c rng', rng.choice lowercaseChars 'a' = (c, rng') := ⟨_, _, rfl⟩
    obtain ⟨t, ht, hlen, hmem⟩ := ih rng' (r ++ [c])
    have hstep : randomStringAux rng r (n + 1) = randomStringAux rng' (r ++ [c]) n := by
      simp [randomStringAux, hc]
    refine ⟨c :: t, ?_, by simp [hlen], ?_⟩
    · rw [hstep, ht, List.append_assoc, List.singleton_append]
    · intro x hx
      rcases List.mem_cons.mp hx with hx | hx
      · subst hx
        have := choice_mem rng 'a' (l := lowercaseChars) (by decide)
        rwa [hc] at this
      · exact hmem x hx

theorem random_string_length (length : Nat) (rng : Rng) :
    ((random_string length rng).1).length = length := by
  obtain ⟨t, ht, hlen, _⟩ := randomStringAux_spec length rng []
  simp only [random_string]
  show (randomStringAux rng [] length).1.length = length
  rw [ht]; simpa using hlen

theorem random_string_chars (length : Nat) (rng : Rng) :
    ∀ c ∈ ((random_string length rng).1).data, c ∈ lowercaseChars := by
  obtain ⟨t, ht, _, hmem⟩ := randomStringAux_spec length rng []
  simp only [random_string]
  show ∀ c ∈ (randomStringAux rng [] length).1, c ∈ lowercaseChars
  rw [ht]; simpa using hmem

theorem randomIntegerAux_spec (n : Nat) : ∀ (rng : Rng) (r : List Char),
    ∃ t, (randomIntegerAux rng r n).1 = r ++ t ∧ t.length = n ∧
      ∀ c ∈ t, c ∈ digitChars := by
  induction n with
  | zero => intro rng r; exact ⟨[], by simp [randomIntegerAux]⟩
  | succ n ih =>
    intro rng r
    obtain ⟨c0, rng2, hc⟩ :
        ∃ c0 rng2, rng.choice (if r ≠ [] then digitChars else nonzeroDigitChars) '0' = (c0, rng2) :=
      ⟨_, _, rfl⟩
    obtain ⟨t, ht, hlen, hmem⟩ := ih rng2 (r ++ [c0])
    have hstep : randomIntegerAux rng r (n + 1) = randomIntegerAux rng2 (r ++ [c0]) n := by
      simp only [randomIntegerAux, hc]
    refine ⟨c0 :: t, ?_, by simp [hlen], ?_⟩
    · rw [hstep, ht, List.append_assoc, List.singleton_append]
    · intro x hx
      rcases List.mem_cons.mp hx with hx | hx
      · rw [hx]
        have hcm : c0 ∈ (if r ≠ [] then digitChars else nonzeroDigitChars) := by
          have h2 := choice_mem rng '0' (l := if r ≠ [] then digitChars else nonzeroDigitChars)
            (by split <;> decide)
          rw [hc] at h2
          exact h2
        rcases Decidable.em (r ≠ []) with hr | hr
        · rwa [if_pos hr] at hcm
        · rw [if_neg hr] at hcm
          have h3 : ∀ y ∈ nonzeroDigitChars, y ∈ digitChars := by decide
          exact h3 c0 hcm
      · exact hmem x hx

theorem randomIntegerAux_head (n : Nat) (rng : Rng) (hn : 0 < n) :
    ∃ c t, (randomIntegerAux rng [] n).1 = c :: t ∧ c ∈ nonzeroDigitChars := by
  obtain ⟨m, rfl⟩ : ∃ m, n = m + 1 := ⟨n - 1, by omega⟩
  obtain ⟨c0, rng2, hc⟩ :
      ∃ c0 rng2, rng.choice nonzeroDigitChars '0' = (c0, rng2) := ⟨_, _, rfl⟩
  have hstep : randomIntegerAux rng [] (m + 1) = randomIntegerAux rng2 [c0] m := by
    simp only [randomIntegerAux]
    rw [if_neg (by simp), hc]
    rfl
  obtain ⟨t, ht, _, _⟩ := randomIntegerAux_spec m rng2 [c0]
  refine ⟨c0, t, ?_, ?_⟩
  · rw [hstep, ht, List.singleton_append]
  · have h2 := choice_mem rng '0' (l := nonzeroDigitChars) (by decide)
    rw [hc] at h2
    exact h2

theorem random_integer_length (length : Nat) (rng : Rng) :
    ((random_integer length rng).1).length = length := by
  obtain ⟨t, ht, hlen, _⟩ := randomIntegerAux_spec length rng []
  show (randomIntegerAux rng [] length).1.length = length
  rw [ht]; simpa using hlen

theorem random_integer_chars (length : Nat) (rng : Rng) :
    ∀ c ∈ ((random_integer length rng).1).data, c ∈ digitChars := by
  obtain ⟨t, ht, _, hmem⟩ := randomIntegerAux_spec length rng []
  show ∀ c ∈ (randomIntegerAux rng [] length).1, c ∈ digitChars
  rw [ht]; simpa using hmem

theorem random_integer_head (length : Nat) (rng : Rng) (h : 0 < length) :
    ∃ c t, ((random_integer length rng).1).data = c :: t ∧ c ∈ nonzeroDigitChars := by
  obtain ⟨c, t, ht, hc⟩ := randomIntegerAux_head length rng h
  exact ⟨c, t, ht, hc⟩

theorem uniquify_sound {generator : Rng → String × Rng} :
    ∀ {fuel : Nat} {st : State} {v : String} {st' : State},
    uniquify fuel generator st = some (v, st') →
    st'.used_values = v :: st.used_values ∧ v ∉ st.used_values ∧
      ∃ r : Rng, (generator r).1 = v := by
  intro fuel
  induction fuel with
  | zero => intro st v st' h; simp [uniquify] at h
  | succ n ih =>
    intro st v st' h
    obtain ⟨w, rng', hw⟩ : ∃ w rng', generator st.rng = (w, rng') := ⟨_, _, rfl⟩
    rw [uniquify] at h
    simp only [hw] at h
    by_cases hmem : w ∈ st.used_values
    · rw [if_pos hmem] at h
      obtain ⟨h1, h2, h3⟩ := @ih ⟨rng', st.used_values⟩ v st' h
      exact ⟨h1, h2, h3⟩
    · rw [if_neg hmem] at h
      obtain ⟨hv, hst⟩ := Prod.mk.injEq .. ▸ Option.some.injEq .. ▸ h
      subst hv
      refine ⟨by rw [← hst], hmem, st.rng, by rw [hw]⟩

theorem value_string_sound {fuel : Nat} {cfg : Config} {len? : Option Nat}
    {st : State} {v : String} {st' : State}
    (hty : cfg.return_type = "string")
    (h : value fuel cfg len? st = some (v, st')) :
    ∃ s, v = "\"" ++ s ++ "\"" ∧ st'.used_values = s :: st.used_values ∧
      s ∉ st.used_values ∧ s.length = len?.getD cfg.return_length ∧
      ∀ c ∈ s.data, c ∈ lowercaseChars := by
  rw [value, hty, if_pos rfl] at h
  cases hu : uniquify fuel (random_string (len?.getD cfg.return_length)) st with
  | none => rw [hu] at h; simp at h
  | some p =>
    obtain ⟨s, st2⟩ := p
    rw [hu] at h
    simp only [Option.some.injEq, Prod.mk.injEq] at h
    obtain ⟨hv, hst⟩ := h
    obtain ⟨hreg, hfresh, r, hr⟩ := uniquify_sound hu
    subst hst
    refine ⟨s, hv.symm, hreg, hfresh, ?_, ?_⟩
    · rw [← hr]; exact random_string_length _ _
    · rw [← hr]; exact random_string_chars _ _

theorem value_integer_sound {fuel : Nat} {cfg : Config} {len? : Option Nat}
    {st : State} {v : String} {st' : State}
    (hty : cfg.return_type = "integer")
    (h : value fuel cfg len? st = some (v, st')) :
    st'.used_values = v :: st.used_values ∧ v ∉ st.used_values ∧
      v.length = len?.getD cfg.return_length ∧
      (∀ c ∈ v.data, c ∈ digitChars) ∧
      (0 < len?.getD cfg.return_length → v.data.head? ≠ some '0') := by
  rw [value, hty, if_neg (by decide), if_pos rfl] at h
  obtain ⟨hreg, hfresh, r, hr⟩ := uniquify_sound h
  refine ⟨hreg, hfresh, ?_, ?_, ?_⟩
  · rw [← hr]; exact random_integer_length _ _
  · rw [← hr]; exact random_integer_chars _ _
  · intro hpos hhead
    obtain ⟨c0, t, hdata, hc0⟩ := random_integer_head (len?.getD cfg.return_length) r hpos
    rw [← hr, hdata] at hhead
    simp only [List.head?_cons, Option.some.injEq] at hhead
    rw [hhead] at hc0
    revert hc0
    decide

theorem value_registers {fuel : Nat} {cfg : Config} {len? : Option Nat}
    {st : State} {v : String} {st' : State}
    (h : value fuel cfg len? st = some (v, st')) :
    ∃ w, st'.used_values = w :: st.used_values ∧ w ∉ st.used_values ∧
      ∀ c ∈ w.data, c ∈ alnumChars := by
  by_cases hs : cfg.return_type = "string"
  · obtain ⟨s, _, hreg, hfresh, _, hchars⟩ := value_string_sound hs h
    refine ⟨s, hreg, hfresh, fun c hc => ?_⟩
    rw [alnumChars]
    exact List.mem_append.mpr (Or.inl (hchars c hc))
  · by_cases hi : cfg.return_type = "integer"
    · obtain ⟨hreg, hfresh, _, hchars, _⟩ := value_integer_sound hi h
      refine ⟨v, hreg, hfresh, fun c hc => ?_⟩
      rw [alnumChars]
      exact List.mem_append.mpr (Or.inr (hchars c hc))
    · rw [value, if_neg hs, if_neg hi] at h
      simp at h

theorem fixedNameLoop_sound :
    ∀ {fuel index : Nat} {canonical : String} {st : State} {v : String} {st' : State},
    fixedNameLoop fuel canonical index st = some (v, st') →
    st'.used_values = v :: st.used_values ∧ v ∉ st.used_values ∧ st'.rng = st.rng := by
  intro fuel
  induction fuel with
  | zero => intro index canonical st v st' h; simp [fixedNameLoop] at h
  | succ n ih =>
    intro index canonical st v st' h
    rw [fixedNameLoop] at h
    by_cases hmem :
        (if index = 0 then canonical else canonical ++ "_" ++ toString index) ∈ st.used_values
    · rw [if_pos hmem] at h
      exact ih h
    · rw [if_neg hmem] at h
      simp only [Option.some.injEq, Prod.mk.injEq] at h
      obtain ⟨hv, hst⟩ := h
      subst hv
      rw [← hst]
      exact ⟨rfl, hmem, rfl⟩

/-!  Registry growth. -/

theorem regGrow_refl (u : List String) : RegGrow u u :=
  ⟨List.suffix_refl u, fun h => h⟩

theorem regGrow_trans {u1 u2 u3 : List String} (h1 : RegGrow u1 u2) (h2 : RegGrow u2 u3) :
    RegGrow u1 u3 :=
  ⟨h1.1.trans h2.1, fun h => h2.2 (h1.2 h)⟩

theorem regGrow_cons {u : List String} {w : String} (hw : w ∉ u) : RegGrow u (w :: u) := by
  refine ⟨List.suffix_cons w u, fun h => ?_⟩
  rw [List.pairwise_cons]
  exact ⟨fun b hb hwb => hw (hwb ▸ hb), h⟩

theorem functionNameLoop_grow :
    ∀ {idxs : List Nat} {fuel : Nat} {cfg : Config} {parts : List String}
      {st : State} {ps : List String} {st' : State},
    functionNameLoop fuel cfg idxs parts st = some (ps, st') →
    RegGrow st.used_values st'.used_values := by
  intro idxs
  induction idxs with
  | nil =>
    intro fuel cfg parts st ps st' h
    simp only [functionNameLoop, Option.some.injEq, Prod.mk.injEq] at h
    rw [← h.2]
    exact regGrow_refl _
  | cons i rest ih =>
    intro fuel cfg parts st ps st' h
    rw [functionNameLoop] at h
    by_cases h0 : i = 0
    · rw [if_pos h0] at h
      cases hu : uniquify fuel (random_string cfg.function_name_part_length) st with
      | none => rw [hu] at h; simp at h
      | some p =>
        obtain ⟨w, st2⟩ := p
        rw [hu] at h
        obtain ⟨hreg, hfresh, _⟩ := uniquify_sound hu
        exact regGrow_trans (hreg ▸ regGrow_cons hfresh) (ih h)
    · rw [if_neg h0] at h
      by_cases h1 : i = 1
      · rw [if_pos h1] at h
        cases hu : uniquify fuel (random_integer cfg.function_name_part_length) st with
        | none => rw [hu] at h; simp at h
        | some p =>
          obtain ⟨w, st2⟩ := p
          rw [hu] at h
          obtain ⟨hreg, hfresh, _⟩ := uniquify_sound hu
          exact regGrow_trans (hreg ▸ regGrow_cons hfresh) (ih h)
      · rw [if_neg h1] at h
        obtain ⟨n0, rng2, hnext⟩ : ∃ n0 rng2, st.rng.next = (n0, rng2) := ⟨_, _, rfl⟩
        simp only [hnext] at h
        cases hu : uniquify fuel
            ((if n0 % 2 = 0 then random_integer else random_string)
              cfg.function_name_part_length)
            { rng := rng2, used_values := st.used_values } with
        | none => rw [hu] at h; simp at h
        | some p =>
          obtain ⟨w, st2⟩ := p
          rw [hu] at h
          obtain ⟨hreg, hfresh, _⟩ := uniquify_sound hu
          exact regGrow_trans (hreg ▸ regGrow_cons hfresh) (ih h)

theorem function_name_grow {fuel : Nat} {cfg : Config} {canonical : String}
    {st : State} {v : String} {st' : State}
    (h : function_name fuel cfg canonical st = some (v, st')) :
    RegGrow st.used_values st'.used_values := by
  rw [function_name] at h
  by_cases hr : cfg.function_name = "random"
  · rw [if_pos hr] at h
    obtain ⟨np, rng1, hri⟩ :
        ∃ np rng1, st.rng.randint cfg.function_name_min_parts cfg.function_name_max_parts = (np, rng1) :=
      ⟨_, _, rfl⟩
    simp only [hri] at h
    cases hl : functionNameLoop fuel cfg (List.range np) []
        { rng := rng1, used_values := st.used_values } with
    | none => rw [hl] at h; simp at h
    | some p =>
      obtain ⟨parts, st2⟩ := p
      rw [hl] at h
      simp only [Option.some.injEq, Prod.mk.injEq] at h
      rw [← h.2]
      exact @functionNameLoop_grow (List.range np) fuel cfg [] ⟨rng1, st.used_values⟩ parts st2 hl
  · rw [if_neg hr] at h
    by_cases hf : cfg.function_name = "fixed"
    · rw [if_pos hf] at h
      obtain ⟨hreg, hfresh, _⟩ := fixedNameLoop_sound h
      exact hreg ▸ regGrow_cons hfresh
    · rw [if_neg hf] at h
      simp at h

theorem runCall_grow {fuel : Nat} {cfg : Config} {c : Call} {st : State}
    {v : String} {st' : State}
    (h : runCall fuel cfg c st = some (v, st')) :
    RegGrow st.used_values st'.used_values := by
  cases c with
  | value len =>
    obtain ⟨w, hreg, hfresh, _⟩ := value_registers h
    exact hreg ▸ regGrow_cons hfresh
  | function_name canonical => exact function_name_grow h
  | uniquify g len =>
    obtain ⟨hreg, hfresh, _⟩ := uniquify_sound h
    exact hreg ▸ regGrow_cons hfresh

theorem runCalls_grow :
    ∀ {cs : List Call} {fuel : Nat} {cfg : Config} {st : State}
      {vs : List String} {st' : State},
    runCalls fuel cfg cs st = some (vs, st') →
    RegGrow st.used_values st'.used_values := by
  intro cs
  induction cs with
  | nil =>
    intro fuel cfg st vs st' h
    simp only [runCalls, Option.some.injEq, Prod.mk.injEq] at h
    rw [← h.2]
    exact regGrow_refl _
  | cons c rest ih =>
    intro fuel cfg st vs st' h
    rw [runCalls] at h
    cases hc : runCall fuel cfg c st with
    | none => rw [hc] at h; simp at h
    | some p =>
      obtain ⟨v, st1⟩ := p
      rw [hc] at h
      simp only [Option.bind_eq_bind, Option.some_bind] at h
      cases hrest : runCalls fuel cfg rest st1 with
      | none => rw [hrest] at h; simp at h
      | some q =>
        obtain ⟨ws, st2⟩ := q
        rw [hrest] at h
        simp at h
        obtain ⟨hvs, hst⟩ := h
        subst hst
        exact regGrow_trans (runCall_grow hc) (ih hrest)

/-!  For integer-typed, fixed-named instances every returned value is itself
registered, fresh at the time of the call. -/

theorem runCall_registered {fuel : Nat} {cfg : Config} {c : Call} {st : State}
    {v : String} {st' : State}
    (hty : cfg.return_type = "integer") (hfn : cfg.function_name = "fixed")
    (h : runCall fuel cfg c st = some (v, st')) :
    st'.used_values = v :: st.used_values ∧ v ∉ st.used_values := by
  cases c with
  | value len =>
    obtain ⟨hreg, hfresh, _⟩ := value_integer_sound hty h
    exact ⟨hreg, hfresh⟩
  | function_name canonical =>
    rw [runCall, function_name, hfn, if_neg (by decide), if_pos rfl] at h
    obtain ⟨hreg, hfresh, _⟩ := fixedNameLoop_sound h
    exact ⟨hreg, hfresh⟩
  | uniquify g len =>
    obtain ⟨hreg, hfresh, _⟩ := uniquify_sound h
    exact ⟨hreg, hfresh⟩

theorem runCalls_registered :
    ∀ {cs : List Call} {fuel : Nat} {cfg : Config} {st : State}
      {vs : List String} {st' : State},
    cfg.return_type = "integer" → cfg.function_name = "fixed" →
    runCalls fuel cfg cs st = some (vs, st') →
    st'.used_values = vs.reverse ++ st.used_values ∧
      (∀ v ∈ vs, v ∉ st.used_values) ∧ vs.Pairwise (fun a b => a ≠ b) := by
  intro cs
  induction cs with
  | nil =>
    intro fuel cfg st vs st' hty hfn h
    simp only [runCalls, Option.some.injEq, Prod.mk.injEq] at h
    obtain ⟨hvs, hst⟩ := h
    subst hvs; subst hst
    simp
  | cons c rest ih =>
    intro fuel cfg st vs st' hty hfn h
    rw [runCalls] at h
    cases hc : runCall fuel cfg c st with
    | none => rw [hc] at h; simp at h
    | some p =>
      obtain ⟨v, st1⟩ := p
      rw [hc] at h
      simp only [Option.bind_eq_bind, Option.some_bind] at h
      cases hrest : runCalls fuel cfg rest st1 with
      | none => rw [hrest] at h; simp at h
      | some q =>
        obtain ⟨ws, st2⟩ := q
        rw [hrest] at h
        simp at h
        obtain ⟨hvs, hst⟩ := h
        subst hst
        obtain ⟨hreg1, hfresh1⟩ := runCall_registered hty hfn hc
        obtain ⟨hreg2, hmem2, hpw2⟩ := ih hty hfn hrest
        subst hvs
        refine ⟨?_, ?_, ?_⟩
        · rw [hreg2, hreg1, List.reverse_cons, List.append_assoc, List.singleton_append]
        · intro x hx
          rcases List.mem_cons.mp hx with hx | hx
          · rw [hx]; exact hfresh1
          · intro hmem
            exact hmem2 x hx (hreg1 ▸ List.mem_cons_of_mem v hmem)
        · rw [List.pairwise_cons]
          refine ⟨fun w hw hvw => ?_, hpw2⟩
          have : w ∉ st1.used_values := hmem2 w hw
          rw [hreg1] at this
          exact this (hvw ▸ List.mem_cons_self v st.used_values)

/-!  Registered strings are alphanumeric when every insertion comes from
the random generators. -/

theorem allAlnum_cons {u : List String} {w : String}
    (hu : AllAlnum u) (hw : ∀ c ∈ w.data, c ∈ alnumChars) : AllAlnum (w :: u) := by
  intro s hs
  rcases List.mem_cons.mp hs with hs | hs
  · rw [hs]; exact hw
  · exact hu s hs

theorem random_string_alnum (length : Nat) (r : Rng) :
    ∀ c ∈ ((random_string length r).1).data, c ∈ alnumChars := by
  intro c hc
  rw [alnumChars]
  exact List.mem_append.mpr (Or.inl (random_string_chars length r c hc))

theorem random_integer_alnum (length : Nat) (r : Rng) :
    ∀ c ∈ ((random_integer length r).1).data, c ∈ alnumChars := by
  intro c hc
  rw [alnumChars]
  exact List.mem_append.mpr (Or.inr (random_integer_chars length r c hc))

theorem uniquify_alnum {fuel : Nat} {generator : Rng → String × Rng} {st : State}
    {v : String} {st' : State}
    (hg : ∀ r : Rng, ∀ c ∈ ((generator r).1).data, c ∈ alnumChars)
    (h : uniquify fuel generator st = some (v, st')) :
    AllAlnum st.used_values → AllAlnum st'.used_values := by
  intro hall
  obtain ⟨hreg, _, r, hr⟩ := uniquify_sound h
  rw [hreg]
  exact allAlnum_cons hall (hr ▸ hg r)

theorem value_alnum {fuel : Nat} {cfg : Config} {len? : Option Nat}
    {st : State} {v : String} {st' : State}
    (h : value fuel cfg len? st = some (v, st')) :
    AllAlnum st.used_values → AllAlnum st'.used_values := by
  intro hall
  obtain ⟨w, hreg, _, hw⟩ := value_registers h
  rw [hreg]
  exact allAlnum_cons hall hw

theorem functionNameLoop_alnum :
    ∀ {idxs : List Nat} {fuel : Nat} {cfg : Config} {parts : List String}
      {st : State} {ps : List String} {st' : State},
    functionNameLoop fuel cfg idxs parts st = some (ps, st') →
    AllAlnum st.used_values → AllAlnum st'.used_values := by
  intro idxs
  induction idxs with
  | nil =>
    intro fuel cfg parts st ps st' h hall
    simp only [functionNameLoop, Option.some.injEq, Prod.mk.injEq] at h
    rw [← h.2]
    exact hall
  | cons i rest ih =>
    intro fuel cfg parts st ps st' h hall
    rw [functionNameLoop] at h
    by_cases h0 : i = 0
    · rw [if_pos h0] at h
      cases hu : uniquify fuel (random_string cfg.function_name_part_length) st with
      | none => rw [hu] at h; simp at h
      | some p =>
        obtain ⟨w, st2⟩ := p
        rw [hu] at h
        exact ih h (uniquify_alnum (fun r => random_string_alnum _ r) hu hall)
    · rw [if_neg h0] at h
      by_cases h1 : i = 1
      · rw [if_pos h1] at h
        cases hu : uniquify fuel (random_integer cfg.function_name_part_length) st with
        | none => rw [hu] at h; simp at h
        | some p =>
          obtain ⟨w, st2⟩ := p
          rw [hu] at h
          exact ih h (uniquify_alnum (fun r => random_integer_alnum _ r) hu hall)
      · rw [if_neg h1] at h
        obtain ⟨n0, rng2, hnext⟩ : ∃ n0 rng2, st.rng.next = (n0, rng2) := ⟨_, _, rfl⟩
        simp only [hnext] at h
        cases hu : uniquify fuel
            ((if n0 % 2 = 0 then random_integer else random_string)
              cfg.function_name_part_length)
            { rng := rng2, used_values := st.used_values } with
        | none => rw [hu] at h; simp at h
        | some p =>
          obtain ⟨w, st2⟩ := p
          rw [hu] at h
          refine ih h (uniquify_alnum (fun r => ?_) hu hall)
          by_cases hb : n0 % 2 = 0
          · rw [if_pos hb]; exact random_integer_alnum _ r
          · rw [if_neg hb]; exact random_string_alnum _ r

theorem function_name_alnum {fuel : Nat} {cfg : Config} {canonical : String}
    {st : State} {v : String} {st' : State}
    (hfn : cfg.function_name = "random")
    (h : function_name fuel cfg canonical st = some (v, st')) :
    AllAlnum st.used_values → AllAlnum st'.used_values := by
  intro hall
  rw [function_name, hfn, if_pos rfl] at h
  obtain ⟨np, rng1, hri⟩ :
      ∃ np rng1, st.rng.randint cfg.function_name_min_parts cfg.function_name_max_parts = (np, rng1) :=
    ⟨_, _, rfl⟩
  simp only [hri] at h
  cases hl : functionNameLoop fuel cfg (List.range np) []
      { rng := rng1, used_values := st.used_values } with
  | none => rw [hl] at h; simp at h
  | some p =>
    obtain ⟨parts, st2⟩ := p
    rw [hl] at h
    simp only [Option.some.injEq, Prod.mk.injEq] at h
    rw [← h.2]
    exact @functionNameLoop_alnum (List.range np) fuel cfg [] ⟨rng1, st.used_values⟩
      parts st2 hl hall

theorem runCall_alnum {fuel : Nat} {cfg : Config} {c : Call} {st : State}
    {v : String} {st' : State}
    (hfn : cfg.function_name = "random")
    (h : runCall fuel cfg c st = some (v, st')) :
    AllAlnum st.used_values → AllAlnum st'.used_values := by
  cases c with
  | value len => exact value_alnum h
  | function_name canonical => exact function_name_alnum hfn h
  | uniquify g len =>
    intro hall
    cases g with
    | gstring => exact uniquify_alnum (fun r => random_string_alnum _ r) h hall
    | ginteger => exact uniquify_alnum (fun r => random_integer_alnum _ r) h hall

theorem runCalls_alnum :
    ∀ {cs : List Call} {fuel : Nat} {cfg : Config} {st : State}
      {vs : List String} {st' : State},
    cfg.function_name = "random" →
    runCalls fuel cfg cs st = some (vs, st') →
    AllAlnum st.used_values → AllAlnum st'.used_values := by
  intro cs
  induction cs with
  | nil =>
    intro fuel cfg st vs st' hfn h hall
    simp only [runCalls, Option.some.injEq, Prod.mk.injEq] at h
    rw [← h.2]
    exact hall
  | cons c rest ih =>
    intro fuel cfg st vs st' hfn h hall
    rw [runCalls] at h
    cases hc : runCall fuel cfg c st with
    | none => rw [hc] at h; simp at h
    | some p =>
      obtain ⟨v, st1⟩ := p
      rw [hc] at h
      simp only [Option.bind_eq_bind, Option.some_bind] at h
      cases hrest : runCalls fuel cfg rest st1 with
      | none => rw [hrest] at h; simp at h
      | some q =>
        obtain ⟨ws, st2⟩ := q
        rw [hrest] at h
        simp at h
        obtain ⟨hvs, hst⟩ := h
        subst hst
        exact ih hfn hrest (runCall_alnum hfn hc hall)

/-!  String helpers. -/

theorem str_append_assoc (a b c : String) : a ++ b ++ c = a ++ (b ++ c) := by
  apply String.ext
  simp [String.data_append]

theorem pyStrip1_quote (s : String) : pyStrip1 ("\"" ++ s ++ "\"") = s := by
  apply String.ext
  show ((("\"" ++ s ++ "\"").data.drop 1).dropLast) = s.data
  rw [String.data_append, String.data_append]
  have hq : "\"".data = ['"'] := rfl
  rw [hq, List.singleton_append, List.cons_append]
  simp [List.dropLast_concat]

theorem quote_length (s : String) : ("\"" ++ s ++ "\"").length = s.length + 2 := by
  have hq : "\"".length = 1 := rfl
  rw [String.length_append, String.length_append, hq]
  omega

theorem quote_has_quote_char (s : String) : '"' ∈ ("\"" ++ s ++ "\"").data := by
  rw [String.data_append, String.data_append]
  have hq : "\"".data = ['"'] := rfl
  rw [hq]
  simp

theorem taskArgs_foldl (config : List (String × PyVal)) :
    ∀ acc : List String,
    config.foldl
        (fun args kv =>
          match kv.2 with
          | PyVal.null => args
          | v => args ++ ["--" ++ kv.1, pyStr v])
        acc
      = acc ++ (config.map pairArgs).flatten := by
  induction config with
  | nil => intro acc; simp
  | cons kv rest ih =>
    intro acc
    obtain ⟨k, v⟩ := kv
    cases v with
    | str s =>
      rw [List.foldl_cons, ih, List.map_cons]
      simp [pairArgs, List.append_assoc]
    | int n =>
      rw [List.foldl_cons, ih, List.map_cons]
      simp [pairArgs, List.append_assoc]
    | null =>
      rw [List.foldl_cons, ih, List.map_cons]
      simp [pairArgs]

/-!  The claims. -/

/-- Claim C2: two TaskBuilder instances constructed with equal configurations and
identically seeded randomness sources, given the same sequence of
build(variant) calls, produce identical Task Result triples — for the krc
builder and for the krfix builder alike.  In the embedding an instance is
its configuration plus its state (randomness source and registry), so equal
seeds mean equal states. -/
theorem build_deterministic (fuel : Nat) (cfg cfg' : Config) (st st' : State)
    (variants variants' : List String)
    (hcfg : cfg = cfg') (hst : st = st') (hvar : variants = variants') :
    KRC.buildSeq fuel cfg variants st = KRC.buildSeq fuel cfg' variants' st' ∧
    KRFix.buildSeq fuel cfg variants st = KRFix.buildSeq fuel cfg' variants' st' := by
  subst hcfg
  subst hst
  subst hvar
  exact ⟨rfl, rfl⟩

/-- Witness for C2 at a concrete configuration, seed and call sequence. -/
theorem build_deterministic_witness :
    KRC.buildSeq 50 (cfgStrFixed 10) ["one-step", "concatenation"] stId
      = KRC.buildSeq 50 (cfgStrFixed 10) ["one-step", "concatenation"] stId ∧
    KRFix.buildSeq 50 (cfgStrFixed 10) ["one-step", "concatenation"] stId
      = KRFix.buildSeq 50 (cfgStrFixed 10) ["one-step", "concatenation"] stId :=
  build_deterministic 50 (cfgStrFixed 10) (cfgStrFixed 10) stId stId
    ["one-step", "concatenation"] ["one-step", "concatenation"] rfl rfl rfl

/-- Claim C8: the argument list built for an external invocation is the task-kind
first, then a "--key value" pair for every non-None configuration field in
key order, None-valued fields omitted entirely; in particular the one-step
krc job omits --max_position_combinations. -/
theorem tasks_argument_list_shape :
    (∀ (experiment : String) (config : List (String × PyVal)),
      taskArgs experiment config = experiment :: (config.map pairArgs).flatten) ∧
    "--max_position_combinations"
      ∉ taskArgs "krc" (krcConfig 2000 "mistralai/Mistral-7B-v0.1" "one-step" 0 100) := by
  constructor
  · intro experiment config
    rw [taskArgs, taskArgs_foldl, List.singleton_append]
  · decide

/-- Claim C6: random_integer(L) with L > 0 returns a string of exactly L digit
characters whose first character is a nonzero digit; consequently, for
return_type "integer", value(length := L) never returns a value whose first
character is the zero digit. -/
theorem random_integer_no_leading_zero
    (L : Nat) (rng : Rng) (fuel : Nat) (cfg : Config) (st st' : State) (v : String)
    (hL : 0 < L)
    (hty : cfg.return_type = "integer")
    (hv : value fuel cfg (some L) st = some (v, st')) :
    ((random_integer L rng).1).length = L ∧
    (∀ c ∈ ((random_integer L rng).1).data, c ∈ digitChars) ∧
    (∃ c t, ((random_integer L rng).1).data = c :: t ∧ c ∈ nonzeroDigitChars) ∧
    v.data.head? ≠ some '0' := by
  refine ⟨random_integer_length L rng, random_integer_chars L rng,
    random_integer_head L rng hL, ?_⟩
  obtain ⟨_, _, _, _, hhead⟩ := value_integer_sound hty hv
  exact hhead hL

/-- Witness for C6: length 3, identity stream, fresh integer-typed builder. -/
theorem random_integer_no_leading_zero_witness :
    ((random_integer 3 idStream).1).length = 3 ∧
    (∀ c ∈ ((random_integer 3 idStream).1).data, c ∈ digitChars) ∧
    (∃ c t, ((random_integer 3 idStream).1).data = c :: t ∧ c ∈ nonzeroDigitChars) ∧
    ("112" : String).data.head? ≠ some '0' :=
  random_integer_no_leading_zero 3 idStream 20 (cfgIntFixed 3) stId
    ⟨⟨fun n => n, 3⟩, ["112"]⟩ "112" (by decide) rfl rfl

/-- Claim C5: under the "fixed" naming scheme, a canonical name C not yet in the
registry is returned verbatim, and a second request for the same C (with
C_1 not otherwise used) returns C_1. -/
theorem fixed_function_name_suffixing
    (fuel : Nat) (cfg : Config) (C : String) (st : State)
    (hscheme : cfg.function_name = "fixed")
    (hfuel : 2 ≤ fuel)
    (h1 : C ∉ st.used_values)
    (h2 : C ++ "_1" ∉ st.used_values) :
    ∃ st1 st2, function_name fuel cfg C st = some (C, st1) ∧
      function_name fuel cfg C st1 = some (C ++ "_1", st2) := by
  obtain ⟨f, rfl⟩ : ∃ f, fuel = f + 2 := ⟨fuel - 2, by omega⟩
  have hc0 : (if (0 : Nat) = 0 then C else C ++ "_" ++ toString (0 : Nat)) = C := if_pos rfl
  have hu1 : ("_" : String) ++ toString (1 : Nat) = "_1" := rfl
  have hc1 : (if (1 : Nat) = 0 then C else C ++ "_" ++ toString (1 : Nat)) = C ++ "_1" := by
    rw [if_neg (by decide), str_append_assoc, hu1]
  have hne : C ++ "_1" ≠ C := by
    intro he
    have hlen := congrArg String.length he
    rw [String.length_append] at hlen
    have h21 : ("_1" : String).length = 2 := rfl
    omega
  refine ⟨⟨st.rng, C :: st.used_values⟩, ⟨st.rng, (C ++ "_1") :: C :: st.used_values⟩, ?_, ?_⟩
  · rw [function_name, hscheme, if_neg (by decide), if_pos rfl]
    rw [fixedNameLoop, hc0, if_neg h1]
  · rw [function_name, hscheme, if_neg (by decide), if_pos rfl]
    rw [fixedNameLoop, hc0,
      if_pos (show C ∈ (⟨st.rng, C :: st.used_values⟩ : State).used_values from
        List.mem_cons_self C st.used_values)]
    rw [fixedNameLoop, hc1]
    rw [if_neg ?hnotmem]
    case hnotmem =>
      intro hmem
      rcases List.mem_cons.mp hmem with hx | hx
      · exact hne hx
      · exact h2 hx

/-- Witness for C5: the canonical name key_function requested twice from a
fresh fixed-scheme instance. -/
theorem fixed_function_name_suffixing_witness :
    ∃ st1 st2,
      function_name 2 (cfgStrFixed 10) "key_function" stId = some ("key_function", st1) ∧
      function_name 2 (cfgStrFixed 10) "key_function" st1
        = some ("key_function" ++ "_1", st2) :=
  fixed_function_name_suffixing 2 (cfgStrFixed 10) "key_function" stId rfl (by decide)
    (by decide) (by decide)

/-- Claim C4: every successful build("one-step") returns exactly one context
segment of the form def key(): return literal, the prompt assert key() ==,
and an expected output equal to the literal preceded by one space. -/
theorem one_step_task_shape
    (fuel : Nat) (cfg : Config) (st st' : State) (segs : List String) (p out : String)
    (h : KRC.build fuel cfg "one-step" st = some ((segs, p, out), st')) :
    ∃ key rv, segs = ["def " ++ key ++ "():\n    return " ++ rv] ∧
      p = "assert " ++ key ++ "() ==" ∧ out = " " ++ rv := by
  rw [KRC.build, if_pos rfl, KRC.one_step] at h
  cases hv : value fuel cfg none st with
  | none => rw [hv] at h; simp at h
  | some pv =>
    obtain ⟨rv, st1⟩ := pv
    rw [hv] at h
    simp only [Option.bind_eq_bind, Option.some_bind] at h
    cases hf : function_name fuel cfg "key_function" st1 with
    | none => rw [hf] at h; simp at h
    | some pf =>
      obtain ⟨fk, st2⟩ := pf
      rw [hf] at h
      simp at h
      obtain ⟨⟨hsegs, hp, hout⟩, hst⟩ := h
      exact ⟨fk, rv, hsegs.symm, hp.symm, hout.symm⟩

/-- Witness for C4: a fresh string-typed fixed-name builder over the
identity stream. -/
theorem one_step_task_shape_witness :
    ∃ key rv,
      ["def key_function():\n    return \"abc\""]
        = ["def " ++ key ++ "():\n    return " ++ rv] ∧
      "assert key_function() ==" = "assert " ++ key ++ "() ==" ∧
      " \"abc\"" = " " ++ rv :=
  one_step_task_shape 20 (cfgStrFixed 3) stId ⟨⟨fun n => n, 3⟩, ["key_function", "abc"]⟩
    ["def key_function():\n    return \"abc\""] "assert key_function() ==" " \"abc\"" rfl

/-- Claim C3 fails as stated: for return_length 10 the expected-output component
of a concrete concatenation build is the 13-character string consisting of
a space followed by the quoted concatenation — its length is not 12, and
it starts with a space, so it is not itself a quoted string. -/
theorem concatenation_expected_output_is_not_length_twelve :
    (KRC.build 50 (cfgStrFixed 10) "concatenation" stId).map (fun x => x.1.2.2)
      = some " \"abcdefghij\"" ∧
    (" \"abcdefghij\"" : String).length ≠ 12 ∧
    (" \"abcdefghij\"" : String).data.head? = some ' ' := by
  refine ⟨rfl, by decide, by decide⟩

theorem concatenation_out_shape_of_values {fuel : Nat} {cfg : Config} {st st1 st2 : State}
    {rv1 rv2 out : String}
    (hty : cfg.return_type = "string")
    (hv1 : value fuel cfg (some (cfg.return_length / 2)) st = some (rv1, st1))
    (hv2 : value fuel cfg (some (cfg.return_length / 2)) st1 = some (rv2, st2))
    (hout : " \"" ++ (pyStrip1 rv1 ++ pyStrip1 rv2) ++ "\"" = out) :
    ∃ s1 s2, s1.length = cfg.return_length / 2 ∧ s2.length = cfg.return_length / 2 ∧
      out = " " ++ ("\"" ++ (s1 ++ s2) ++ "\"") ∧
      (cfg.return_length = 10 →
        ("\"" ++ (s1 ++ s2) ++ "\"").length = 12 ∧ out.length = 13) := by
  obtain ⟨s1, hs1, _, _, hlen1, _⟩ := value_string_sound hty hv1
  obtain ⟨s2, hs2, _, _, hlen2, _⟩ := value_string_sound hty hv2
  subst hs1
  subst hs2
  rw [pyStrip1_quote, pyStrip1_quote] at hout
  have hlit : (" \"" : String) = " " ++ "\"" := rfl
  have hform : (" \"" ++ (s1 ++ s2)) ++ "\""
      = " " ++ (("\"" ++ (s1 ++ s2)) ++ "\"") := by
    rw [hlit, str_append_assoc " " "\"" (s1 ++ s2),
      str_append_assoc " " ("\"" ++ (s1 ++ s2)) "\""]
  refine ⟨s1, s2, by simpa using hlen1, by simpa using hlen2, ?_, ?_⟩
  · rw [← hout, hform]
  · intro hrl
    have hq : ("\"" ++ (s1 ++ s2) ++ "\"").length = 12 := by
      rw [quote_length, String.length_append]
      rw [hrl] at hlen1 hlen2
      simp at hlen1 hlen2
      omega
    refine ⟨hq, ?_⟩
    rw [← hout, hform, String.length_append, hq]
    decide

theorem krfix_concatenation_shape {fuel : Nat} {cfg : Config} {st st' : State}
    {segs : List String} {p out : String}
    (hty : cfg.return_type = "string")
    (h : KRFix.concatenation fuel cfg st = some ((segs, p, out), st')) :
    ∃ s1 s2, s1.length = cfg.return_length / 2 ∧ s2.length = cfg.return_length / 2 ∧
      out = " " ++ ("\"" ++ (s1 ++ s2) ++ "\"") ∧
      (cfg.return_length = 10 →
        ("\"" ++ (s1 ++ s2) ++ "\"").length = 12 ∧ out.length = 13) := by
  rw [KRFix.concatenation, if_pos hty] at h
  cases hv1 : value fuel cfg (some (cfg.return_length / 2)) st with
  | none => rw [hv1] at h; simp at h
  | some pv1 =>
    obtain ⟨rv1, st1⟩ := pv1
    rw [hv1] at h
    simp only [Option.bind_eq_bind, Option.some_bind] at h
    cases hv2 : value fuel cfg (some (cfg.return_length / 2)) st1 with
    | none => rw [hv2] at h; simp at h
    | some pv2 =>
      obtain ⟨rv2, st2⟩ := pv2
      rw [hv2] at h
      simp only [Option.bind_eq_bind, Option.some_bind] at h
      cases hf1 : function_name fuel cfg "key_function" st2 with
      | none => rw [hf1] at h; simp at h
      | some pf1 =>
        obtain ⟨fk, st3⟩ := pf1
        rw [hf1] at h
        simp only [Option.bind_eq_bind, Option.some_bind] at h
        cases hf2 : function_name fuel cfg "value_function_1" st3 with
        | none => rw [hf2] at h; simp at h
        | some pf2 =>
          obtain ⟨fv1, st4⟩ := pf2
          rw [hf2] at h
          simp only [Option.bind_eq_bind, Option.some_bind] at h
          cases hf3 : function_name fuel cfg "value_function_2" st4 with
          | none => rw [hf3] at h; simp at h
          | some pf3 =>
            obtain ⟨fv2, st5⟩ := pf3
            rw [hf3] at h
            simp only [Option.bind_eq_bind, Option.some_bind] at h
            cases hb1 : KRFix.strContains cfg.call_graph_comment_type "called_by" with
            | false =>
              rw [hb1] at h
              simp only [Bool.false_eq_true, if_false, Option.some_bind] at h
              cases hb2 : KRFix.strContains cfg.call_graph_comment_type "calls" with
              | false =>
                rw [hb2] at h
                simp only [Bool.false_eq_true, if_false, Option.some_bind] at h
                simp at h
                obtain ⟨⟨hsegs, hp, hout⟩, hst⟩ := h
                exact concatenation_out_shape_of_values hty hv1 hv2 hout
              | true =>
                rw [hb2] at h
                simp only [if_true] at h
                cases hc2 : KRFix.call_graph_comment cfg "calls" [fv1, fv2] with
                | none => rw [hc2] at h; simp at h
                | some c2 =>
                  rw [hc2] at h
                  simp only [Option.bind_eq_bind, Option.some_bind] at h
                  simp at h
                  obtain ⟨⟨hsegs, hp, hout⟩, hst⟩ := h
                  exact concatenation_out_shape_of_values hty hv1 hv2 hout
            | true =>
              rw [hb1] at h
              simp only [if_true] at h
              cases hc1 : KRFix.call_graph_comment cfg "called_by" [fk] with
              | none => rw [hc1] at h; simp at h
              | some c1 =>
                rw [hc1] at h
                simp only [Option.bind_eq_bind, Option.some_bind] at h
                cases hb2 : KRFix.strContains cfg.call_graph_comment_type "calls" with
                | false =>
                  rw [hb2] at h
                  simp only [Bool.false_eq_true, if_false, Option.some_bind] at h
                  simp at h
                  obtain ⟨⟨hsegs, hp, hout⟩, hst⟩ := h
                  exact concatenation_out_shape_of_values hty hv1 hv2 hout
                | true =>
                  rw [hb2] at h
                  simp only [if_true] at h
                  cases hc2 : KRFix.call_graph_comment cfg "calls" [fv1, fv2] with
                  | none => rw [hc2] at h; simp at h
                  | some c2 =>
                    rw [hc2] at h
                    simp only [Option.bind_eq_bind, Option.some_bind] at h
                    simp at h
                    obtain ⟨⟨hsegs, hp, hout⟩, hst⟩ := h
                    exact concatenation_out_shape_of_values hty hv1 hv2 hout

/-- Claim C3 (amended): build("concatenation") with return_type "string" — in
the krc builder and in the krfix builder alike — draws two half-values whose
inner texts each have length return_length / 2, and its expected-output
component is one leading space followed by a single quoted string equal to
the re-quoted concatenation of the two unquoted halves; for return_length 10
that quoted string has length 12 including quotes, and the full component
has length 13. -/
theorem concatenation_output_shape
    (fuel : Nat) (cfg : Config) (st st' : State) (segs : List String) (p out : String)
    (hty : cfg.return_type = "string")
    (h : KRC.build fuel cfg "concatenation" st = some ((segs, p, out), st')) :
    (∃ s1 s2, s1.length = cfg.return_length / 2 ∧ s2.length = cfg.return_length / 2 ∧
      out = " " ++ ("\"" ++ (s1 ++ s2) ++ "\"") ∧
      (cfg.return_length = 10 →
        ("\"" ++ (s1 ++ s2) ++ "\"").length = 12 ∧ out.length = 13)) ∧
    (∀ (stB stB' : State) (segsB : List String) (pB outB : String),
      KRFix.build fuel cfg "concatenation" stB = some ((segsB, pB, outB), stB') →
      ∃ s1 s2, s1.length = cfg.return_length / 2 ∧ s2.length = cfg.return_length / 2 ∧
        outB = " " ++ ("\"" ++ (s1 ++ s2) ++ "\"") ∧
        (cfg.return_length = 10 →
          ("\"" ++ (s1 ++ s2) ++ "\"").length = 12 ∧ outB.length = 13)) := by
  constructor
  · rw [KRC.build, if_neg (by decide), if_neg (by decide), if_neg (by decide), if_pos rfl,
      KRC.concatenation, if_pos hty] at h
    cases hv1 : value fuel cfg (some (cfg.return_length / 2)) st with
    | none => rw [hv1] at h; simp at h
    | some pv1 =>
      obtain ⟨rv1, st1⟩ := pv1
      rw [hv1] at h
      simp only [Option.bind_eq_bind, Option.some_bind] at h
      cases hv2 : value fuel cfg (some (cfg.return_length / 2)) st1 with
      | none => rw [hv2] at h; simp at h
      | some pv2 =>
        obtain ⟨rv2, st2⟩ := pv2
        rw [hv2] at h
        simp only [Option.bind_eq_bind, Option.some_bind] at h
        cases hf1 : function_name fuel cfg "key_function" st2 with
        | none => rw [hf1] at h; simp at h
        | some pf1 =>
          obtain ⟨fk, st3⟩ := pf1
          rw [hf1] at h
          simp only [Option.bind_eq_bind, Option.some_bind] at h
          cases hf2 : function_name fuel cfg "value_function_1" st3 with
          | none => rw [hf2] at h; simp at h
          | some pf2 =>
            obtain ⟨fv1, st4⟩ := pf2
            rw [hf2] at h
            simp only [Option.bind_eq_bind, Option.some_bind] at h
            cases hf3 : function_name fuel cfg "value_function_2" st4 with
            | none => rw [hf3] at h; simp at h
            | some pf3 =>
              obtain ⟨fv2, st5⟩ := pf3
              rw [hf3] at h
              simp at h
              obtain ⟨⟨hsegs, hp, hout⟩, hst⟩ := h
              exact concatenation_out_shape_of_values hty hv1 hv2 hout
  · intro stB stB' segsB pB outB hB
    rw [KRFix.build, if_neg (by decide), if_pos rfl] at hB
    exact krfix_concatenation_shape hty hB

/-- Witness for the amended C3: a fresh string-typed fixed-name builder with
return_length 10 over the identity stream, run through the krc builder and
through the krfix builder (no comment directions configured). -/
theorem concatenation_output_shape_witness :
    (∃ s1 s2, s1.length = (cfgStrFixed 10).return_length / 2 ∧
      s2.length = (cfgStrFixed 10).return_length / 2 ∧
      " \"abcdefghij\"" = " " ++ ("\"" ++ (s1 ++ s2) ++ "\"") ∧
      ((cfgStrFixed 10).return_length = 10 →
        ("\"" ++ (s1 ++ s2) ++ "\"").length = 12 ∧
          (" \"abcdefghij\"" : String).length = 13)) ∧
    (∃ s1 s2, s1.length = (cfgStrFixed 10).return_length / 2 ∧
      s2.length = (cfgStrFixed 10).return_length / 2 ∧
      " \"abcdefghij\"" = " " ++ ("\"" ++ (s1 ++ s2) ++ "\"") ∧
      ((cfgStrFixed 10).return_length = 10 →
        ("\"" ++ (s1 ++ s2) ++ "\"").length = 12 ∧
          (" \"abcdefghij\"" : String).length = 13)) := by
  have hmain := concatenation_output_shape 50 (cfgStrFixed 10) stId
    ⟨⟨fun n => n, 10⟩,
      ["value_function_2", "value_function_1", "key_function", "fghij", "abcde"]⟩
    [ "def value_function_1():\n    return \"abcde\"",
      "def value_function_2():\n    return \"fghij\"",
      "def key_function():\n    return value_function_1() + value_function_2()" ]
    "assert key_function() ==" " \"abcdefghij\"" rfl rfl
  exact ⟨hmain.1, hmain.2 stId
    ⟨⟨fun n => n, 10⟩,
      ["value_function_2", "value_function_1", "key_function", "fghij", "abcde"]⟩
    [ "def value_function_1():\n    return \"abcde\"",
      "def value_function_2():\n    return \"fghij\"",
      "def key_function():\n    return value_function_1() + value_function_2()" ]
    "assert key_function() ==" " \"abcdefghij\"" rfl⟩

/-- Claim C7: in a krfix three-step build with call_graph_comment_type
"calls,called_by" and template variant "function_names_only", the middle
function's context segment is exactly one calls comment line and one
called_by comment line, each of the form hash-space-names-newline with
names comma-joined, immediately followed by the middle declaration (and the
outer two segments carry their single comment lines likewise). -/
theorem three_step_call_graph_comments
    (fuel : Nat) (cfg : Config) (st st' : State) (segs : List String) (p out : String)
    (hct : cfg.call_graph_comment_type = "calls,called_by")
    (htv : cfg.call_graph_template_variant = "function_names_only")
    (h : KRFix.build fuel cfg "three-step" st = some ((segs, p, out), st')) :
    ∃ rv fk fv1 fv2,
      segs = [ "# " ++ fv2 ++ ", " ++ fk ++ "\n" ++ ("def " ++ fv1 ++ "():\n    return " ++ rv),
               "# " ++ fv1 ++ "\n" ++ ("# " ++ fk ++ "\n"
                 ++ ("def " ++ fv2 ++ "():\n    return " ++ fv1 ++ "()")),
               "# " ++ fv2 ++ ", " ++ fv1 ++ "\n" ++ ("def " ++ fk ++ "():\n    return " ++ fv2 ++ "()") ] ∧
      p = "assert " ++ fk ++ "() ==" ∧ out = " " ++ rv := by
  rw [KRFix.build, if_pos rfl, KRFix.three_step] at h
  cases hv : value fuel cfg none st with
  | none => rw [hv] at h; simp at h
  | some pv =>
    obtain ⟨rv, st1⟩ := pv
    rw [hv] at h
    simp only [Option.bind_eq_bind, Option.some_bind] at h
    cases hf1 : function_name fuel cfg "key_function" st1 with
    | none => rw [hf1] at h; simp at h
    | some pf1 =>
      obtain ⟨fk, st2⟩ := pf1
      rw [hf1] at h
      simp only [Option.bind_eq_bind, Option.some_bind] at h
      cases hf2 : function_name fuel cfg "value_function_1" st2 with
      | none => rw [hf2] at h; simp at h
      | some pf2 =>
        obtain ⟨fv1, st3⟩ := pf2
        rw [hf2] at h
        simp only [Option.bind_eq_bind, Option.some_bind] at h
        cases hf3 : function_name fuel cfg "value_function_2" st3 with
        | none => rw [hf3] at h; simp at h
        | some pf3 =>
          obtain ⟨fv2, st4⟩ := pf3
          rw [hf3] at h
          simp only [Option.bind_eq_bind, Option.some_bind] at h
          rw [hct] at h
          rw [KRFix.call_graph_comment, KRFix.call_graph_comment, htv] at h
          simp only [show KRFix.strContains "calls,called_by" "called_by" = true from rfl,
            show KRFix.strContains "calls,called_by" "calls" = true from rfl,
            if_true, if_neg (show ¬ ("function_names_only" : String) = "calls_called_by"
              by decide), if_pos rfl] at h
          simp only [Option.bind_eq_bind, Option.some_bind] at h
          rw [KRFix.call_graph_comment, KRFix.call_graph_comment, htv,
            if_neg (show ¬ ("function_names_only" : String) = "calls_called_by" by decide),
            if_pos rfl] at h
          simp only [Option.bind_eq_bind, Option.some_bind] at h
          simp at h
          obtain ⟨⟨hsegs, hp, hout⟩, hst⟩ := h
          refine ⟨rv, fk, fv1, fv2, ?_, hp.symm, hout.symm⟩
          rw [← hsegs]
          simp only [List.cons.injEq, and_true]
          refine ⟨?_, ?_, ?_⟩ <;>
            · apply String.ext
              simp [String.data_append, joinSep, List.append_assoc]

/-- Witness for C7: a concrete krfix three-step build with both comment
directions and the bare name-list template. -/
theorem three_step_call_graph_comments_witness :
    ∃ rv fk fv1 fv2,
      [ "# value_function_2, key_function\ndef value_function_1():\n    return \"abcd\"",
        "# value_function_1\n# key_function\ndef value_function_2():\n    return value_function_1()",
        "# value_function_2, value_function_1\ndef key_function():\n    return value_function_2()" ]
        = [ "# " ++ fv2 ++ ", " ++ fk ++ "\n" ++ ("def " ++ fv1 ++ "():\n    return " ++ rv),
            "# " ++ fv1 ++ "\n" ++ ("# " ++ fk ++ "\n"
              ++ ("def " ++ fv2 ++ "():\n    return " ++ fv1 ++ "()")),
            "# " ++ fv2 ++ ", " ++ fv1 ++ "\n"
              ++ ("def " ++ fk ++ "():\n    return " ++ fv2 ++ "()") ] ∧
      "assert key_function() ==" = "assert " ++ fk ++ "() ==" ∧
      " \"abcd\"" = " " ++ rv :=
  three_step_call_graph_comments 50 cfgKrfixDemo stId
    ⟨⟨fun n => n, 4⟩, ["value_function_2", "value_function_1", "key_function", "abcd"]⟩
    [ "# value_function_2, key_function\ndef value_function_1():\n    return \"abcd\"",
      "# value_function_1\n# key_function\ndef value_function_2():\n    return value_function_1()",
      "# value_function_2, value_function_1\ndef key_function():\n    return value_function_2()" ]
    "assert key_function() ==" " \"abcd\"" rfl rfl rfl

theorem functionNameLoop_cgct (fuel : Nat) (cfg : Config) (s1 s2 : String) :
    ∀ (idxs : List Nat) (parts : List String) (st : State),
    functionNameLoop fuel { cfg with call_graph_comment_type := s1 } idxs parts st
      = functionNameLoop fuel { cfg with call_graph_comment_type := s2 } idxs parts st := by
  intro idxs
  induction idxs with
  | nil => intro parts st; rfl
  | cons i rest ih =>
    intro parts st
    simp only [functionNameLoop, ih,
      show ({ cfg with call_graph_comment_type := s1 } : Config).function_name_part_length
        = cfg.function_name_part_length from rfl,
      show ({ cfg with call_graph_comment_type := s2 } : Config).function_name_part_length
        = cfg.function_name_part_length from rfl]

theorem function_name_cgct (fuel : Nat) (cfg : Config) (s1 s2 : String)
    (canonical : String) (st : State) :
    function_name fuel { cfg with call_graph_comment_type := s1 } canonical st
      = function_name fuel { cfg with call_graph_comment_type := s2 } canonical st := by
  simp only [function_name, functionNameLoop_cgct fuel cfg s1 s2,
    show ({ cfg with call_graph_comment_type := s1 } : Config).function_name
      = cfg.function_name from rfl,
    show ({ cfg with call_graph_comment_type := s2 } : Config).function_name
      = cfg.function_name from rfl,
    show ({ cfg with call_graph_comment_type := s1 } : Config).function_name_min_parts
      = cfg.function_name_min_parts from rfl,
    show ({ cfg with call_graph_comment_type := s2 } : Config).function_name_min_parts
      = cfg.function_name_min_parts from rfl,
    show ({ cfg with call_graph_comment_type := s1 } : Config).function_name_max_parts
      = cfg.function_name_max_parts from rfl,
    show ({ cfg with call_graph_comment_type := s2 } : Config).function_name_max_parts
      = cfg.function_name_max_parts from rfl]

theorem three_step_cgct (fuel : Nat) (cfg : Config) (s1 s2 : String) (st : State)
    (hcb : KRFix.strContains s1 "called_by" = KRFix.strContains s2 "called_by")
    (hc : KRFix.strContains s1 "calls" = KRFix.strContains s2 "calls") :
    KRFix.three_step fuel { cfg with call_graph_comment_type := s1 } st
      = KRFix.three_step fuel { cfg with call_graph_comment_type := s2 } st := by
  simp only [KRFix.three_step]
  rw [show value fuel { cfg with call_graph_comment_type := s1 }
      = value fuel { cfg with call_graph_comment_type := s2 } from rfl,
    show KRFix.call_graph_comment { cfg with call_graph_comment_type := s1 }
      = KRFix.call_graph_comment { cfg with call_graph_comment_type := s2 } from rfl,
    hcb, hc]
  simp only [funext fun canonical => funext fun st0 =>
    function_name_cgct fuel cfg s1 s2 canonical st0]

/-- Claim C9: because the krfix builder tests call_graph_comment_type by substring
containment, the one-hop comment types produce exactly the same three-step
builds as their full-chain counterparts: calls is a substring of
calls_one_hop and called_by of called_by_one_hop. -/
theorem one_hop_comment_types_alias (fuel : Nat) (cfg : Config) (st : State) :
    KRFix.build fuel { cfg with call_graph_comment_type := "calls_one_hop" } "three-step" st
      = KRFix.build fuel { cfg with call_graph_comment_type := "calls" } "three-step" st ∧
    KRFix.build fuel { cfg with call_graph_comment_type := "called_by_one_hop" } "three-step" st
      = KRFix.build fuel { cfg with call_graph_comment_type := "called_by" } "three-step" st ∧
    KRFix.build fuel { cfg with call_graph_comment_type := "calls_one_hop,called_by_one_hop" }
        "three-step" st
      = KRFix.build fuel { cfg with call_graph_comment_type := "calls,called_by" }
        "three-step" st := by
  refine ⟨?_, ?_, ?_⟩ <;>
    · rw [KRFix.build, KRFix.build, if_pos rfl, if_pos rfl]
      exact three_step_cgct fuel cfg _ _ st rfl rfl

/-- Claim C1 fails as stated: a string-typed value() call registers only the
unquoted inner text, so a later fixed-scheme function_name() call whose
canonical name is the quoted string returns exactly the string the value()
call already returned — the two returned values are not pairwise distinct. -/
theorem builder_returned_values_can_collide :
    (runCalls 5 (cfgStrFixed 1) [Call.value none, Call.function_name "\"a\""] stZero).map
        Prod.fst
      = some ["\"a\"", "\"a\""] ∧
    ¬ (["\"a\"", "\"a\""] : List String).Pairwise (fun a b => a ≠ b) := by
  constructor
  · rfl
  · intro hpw
    rw [List.pairwise_cons] at hpw
    exact hpw.1 "\"a\"" (List.mem_cons_self _ _) rfl

/-- Claim C1 (amended): across any sequence of value(), function_name() and
uniquify() calls, the registry only grows (the old registry is a suffix of
the new one) and its entries stay pairwise distinct; moreover, whenever
every returned value is itself registered — as for integer-typed values,
uniquify results and fixed-scheme names, i.e. for configurations with
return_type integer and the fixed naming scheme — the returned values are
pairwise distinct and all present in the final registry.  (Returned values
that are merely derived from registered strings, namely quoted string
values and joined random-scheme names, are not registered themselves and
can collide with later fixed-scheme canonical names.) -/
theorem builder_registry_growth_and_registered_distinct
    (fuel : Nat) (cfg : Config) (cs : List Call) (st : State) (vs : List String) (st' : State)
    (h : runCalls fuel cfg cs st = some (vs, st')) :
    RegGrow st.used_values st'.used_values ∧
    (cfg.return_type = "integer" → cfg.function_name = "fixed" →
      vs.Pairwise (fun a b => a ≠ b) ∧ ∀ v ∈ vs, v ∈ st'.used_values) := by
  refine ⟨runCalls_grow h, fun hty hfn => ?_⟩
  obtain ⟨hreg, hmem, hpw⟩ := runCalls_registered hty hfn h
  refine ⟨hpw, fun v hv => ?_⟩
  rw [hreg]
  exact List.mem_append.mpr (Or.inl (List.mem_reverse.mpr hv))

/-- Witness for the amended C1: an integer-typed fixed-named instance
running a value() call and a function_name() call. -/
theorem builder_registry_growth_witness :
    RegGrow stId.used_values
        ((⟨⟨fun n => n, 3⟩, ["key_function", "112"]⟩ : State).used_values) ∧
    ((cfgIntFixed 3).return_type = "integer" → (cfgIntFixed 3).function_name = "fixed" →
      (["112", "key_function"] : List String).Pairwise (fun a b => a ≠ b) ∧
      ∀ v ∈ (["112", "key_function"] : List String),
        v ∈ (⟨⟨fun n => n, 3⟩, ["key_function", "112"]⟩ : State).used_values) :=
  builder_registry_growth_and_registered_distinct 20 (cfgIntFixed 3)
    [Call.value none, Call.function_name "key_function"] stId
    ["112", "key_function"] ⟨⟨fun n => n, 3⟩, ["key_function", "112"]⟩ rfl

/-- Claim C10: a string-typed value() call records only the unquoted inner text in
the registry, not the quoted string it returns; consequently, for a
string-typed random-named instance whose registry holds only pairwise
distinct alphanumeric strings (in particular a fresh instance), after any
call sequence the registry entries — the inner texts of string values and
the individually registered name parts — remain pairwise distinct and
alphanumeric, and no quoted string ever appears in the registry. -/
theorem string_value_registers_inner_only
    (fuel : Nat) (cfg : Config) (len? : Option Nat) (stA stA' : State) (v : String)
    (cs : List Call) (stB stB' : State) (vs : List String)
    (hty : cfg.return_type = "string")
    (hv : value fuel cfg len? stA = some (v, stA'))
    (hfn : cfg.function_name = "random")
    (halnum : AllAlnum stB.used_values)
    (hpw : stB.used_values.Pairwise (fun a b => a ≠ b))
    (hrun : runCalls fuel cfg cs stB = some (vs, stB')) :
    (∃ s, v = "\"" ++ s ++ "\"" ∧ stA'.used_values = s :: stA.used_values ∧
      s ∉ stA.used_values) ∧
    stB'.used_values.Pairwise (fun a b => a ≠ b) ∧
    AllAlnum stB'.used_values ∧
    ∀ s : String, ("\"" ++ s ++ "\"") ∉ stB'.used_values := by
  obtain ⟨s, hs, hreg, hfresh, _, _⟩ := value_string_sound hty hv
  refine ⟨⟨s, hs, hreg, hfresh⟩, (runCalls_grow hrun).2 hpw,
    runCalls_alnum hfn hrun halnum, ?_⟩
  intro s' hmem
  have hq := runCalls_alnum hfn hrun halnum _ hmem '"' (quote_has_quote_char s')
  revert hq
  decide

/-- Witness for C10: a fresh string-typed random-named builder over the
identity stream, one value() call. -/
theorem string_value_registers_inner_only_witness :
    (∃ s, "\"ab\"" = "\"" ++ s ++ "\"" ∧
      ((⟨⟨fun n => n, 2⟩, ["ab"]⟩ : State).used_values) = s :: stId.used_values ∧
      s ∉ stId.used_values) ∧
    ((⟨⟨fun n => n, 2⟩, ["ab"]⟩ : State).used_values).Pairwise (fun a b => a ≠ b) ∧
    AllAlnum ((⟨⟨fun n => n, 2⟩, ["ab"]⟩ : State).used_values) ∧
    ∀ s : String, ("\"" ++ s ++ "\"") ∉ ((⟨⟨fun n => n, 2⟩, ["ab"]⟩ : State).used_values) :=
  string_value_registers_inner_only 20 cfgStrRandom none stId
    ⟨⟨fun n => n, 2⟩, ["ab"]⟩ "\"ab\"" [Call.value none] stId
    ⟨⟨fun n => n, 2⟩, ["ab"]⟩ ["\"ab\""] rfl rfl rfl
    (fun s hs => absurd hs (List.not_mem_nil s)) List.Pairwise.nil rfl

end KRCTasks
